import Mathlib

/-!
Verification development for the infrasys time-series storage core.

Shallow embedding of:
  * `src/infrasys/in_memory_time_series_storage.py` (`InMemoryTimeSeriesStorage`)
  * `src/infrasys/chronify_time_series_storage.py` (`ChronifyTimeSeriesStorage`)
  * `src/infrasys/time_series_manager.py` (`TimeSeriesManager`)
  * `src/infrasys/component_associations.py` (`ComponentAssociations`)

Conventions: instants (`datetime`) and durations (`timedelta`) are `Nat`
(sample offsets from an epoch); sample values are `Int`; Python dicts keyed by
integers are association lists `List (Nat × _)`; fallible operations return
`Except ISError _`.  Components of the repository that are referenced but whose
source is not part of the five core files (the metadata store, the arrow
storage backend, `get_range`, `from_data`, the id allocator) are modelled from
the spec and marked as such in their doc comments.
-/

deriving instance DecidableEq for Except

/-- Error taxonomy of the repository (`infrasys/exceptions.py` plus the plain
Python errors raised by the core files): `ISNotStored`, `ISOperationNotAllowed`,
`ValueError`, `NotImplementedError`, and the bare `Exception` raised by
`ChronifyTimeSeriesStorage._get_single_time_series` on a row-count mismatch. -/
inductive ISError where
  | notStored
  | operationNotAllowed
  | valueError
  | notImplemented
  | internalInconsistency
deriving DecidableEq, Repr

/-- `SingleTimeSeries` from `time_series_models.py`: `id` is `None` until the
manager assigns one; `data` is the ordered sample array.  The `length` of the
series is `data.length`. -/
structure SingleTimeSeries where
  id : Option Nat
  variable_name : String
  resolution : Nat
  initial_time : Nat
  data : List Int
deriving DecidableEq, Repr

/-- `SingleTimeSeriesMetadata`: binds a physical `time_series_id` to the
time-axis description and the user attribute bag (spec section 4.2). -/
structure SingleTimeSeriesMetadata where
  time_series_id : Nat
  variable_name : String
  resolution : Nat
  initial_time : Nat
  length : Nat
  time_series_type : String
  user_attributes : List (String × String)
deriving DecidableEq, Repr

/-- Modelled from the spec: `TimeSeriesMetadata.from_data` of
`time_series_models.py` is not among the five core source files.  Spec section
4.2: the metadata row stores the physical time-series id, variable name, type
discriminator, time axis and the attribute bag, all taken from the series
being added. -/
def SingleTimeSeries.fromData (ts : SingleTimeSeries)
    (user_attributes : List (String × String)) : SingleTimeSeriesMetadata :=
  { time_series_id := ts.id.getD 0
    variable_name := ts.variable_name
    resolution := ts.resolution
    initial_time := ts.initial_time
    length := ts.data.length
    time_series_type := "SingleTimeSeries"
    user_attributes := user_attributes }

/-- `InMemoryTimeSeriesStorage`: `self._arrays`, a dict keyed by physical
time-series id. -/
structure InMemoryTimeSeriesStorage where
  arrays : List (Nat × SingleTimeSeries)
deriving DecidableEq, Repr

/-- `add_time_series`: stores the array only when the id is not yet a key of
`_arrays`; otherwise a silent no-op. -/
def InMemoryTimeSeriesStorage.addTimeSeries (s : InMemoryTimeSeriesStorage)
    (metadata : SingleTimeSeriesMetadata) (time_series : SingleTimeSeries) :
    InMemoryTimeSeriesStorage :=
  if (s.arrays.lookup metadata.time_series_id) = none then
    ⟨s.arrays ++ [(metadata.time_series_id, time_series)]⟩
  else
    s

/-- `remove_time_series`: `self._arrays.pop(time_series_id, None)`, raising
`ISNotStored` when the key is absent. -/
def InMemoryTimeSeriesStorage.removeTimeSeries (s : InMemoryTimeSeriesStorage)
    (time_series_id : Nat) : Except ISError InMemoryTimeSeriesStorage :=
  if (s.arrays.lookup time_series_id) = none then
    .error .notStored
  else
    .ok ⟨s.arrays.filter (fun p => !(p.1 == time_series_id))⟩

/-! ## Chronify (embedded-SQL) storage backend (`chronify_time_series_storage.py`) -/

/-- One row of the shared `time_series` table: `(id, timestamp, value)`. -/
structure ChronRow where
  id : Nat
  timestamp : Nat
  value : Int
deriving DecidableEq, Repr

/-- `ChronifyTimeSeriesStorage`: the single shared table of the embedded
database. -/
structure ChronifyTimeSeriesStorage where
  rows : List ChronRow
deriving DecidableEq, Repr

/-- `_to_dataframe` plus ingestion: one row per sample, timestamps produced by
`time_series.make_timestamps()` (the implicit time axis: start time advanced
by the resolution per sample, spec section 4.1 embedded-SQL variant). -/
def makeTimestampRows (tid : Nat) (t0 resolution : Nat) : List Int → List ChronRow
  | [] => []
  | v :: rest => ⟨tid, t0, v⟩ :: makeTimestampRows tid (t0 + resolution) resolution rest

/-- `add_time_series`: unconditionally ingests the dataframe built by
`_to_dataframe` into the shared table (no presence check). -/
def ChronifyTimeSeriesStorage.addTimeSeries (s : ChronifyTimeSeriesStorage)
    (_metadata : SingleTimeSeriesMetadata) (time_series : SingleTimeSeries) :
    ChronifyTimeSeriesStorage :=
  ⟨s.rows ++ makeTimestampRows (time_series.id.getD 0) time_series.initial_time
      time_series.resolution time_series.data⟩

/-- `remove_time_series`: `self._store.delete_rows(TABLE_NAME, {"id": id})`,
a plain SQL `DELETE ... WHERE id = ?` (the chronify library call; spec section
4.1 describes the variant's queries as literal SQL-equivalent statements). -/
def ChronifyTimeSeriesStorage.removeTimeSeries (s : ChronifyTimeSeriesStorage)
    (time_series_id : Nat) : ChronifyTimeSeriesStorage :=
  ⟨s.rows.filter (fun r => !(r.id == time_series_id))⟩

/-- Modelled from the spec: `arrow_storage.py` is not among the five core
source files.  Spec sections 4.1 and 2: the columnar-file variant keeps one
file per physical time-series id under a managed directory, and its add is
idempotent per physical id. -/
structure ArrowTimeSeriesStorage where
  directory : String
  files : List (Nat × SingleTimeSeries)
deriving DecidableEq, Repr

/-- Modelled from the spec: `ArrowTimeSeriesStorage.create_with_permanent_directory`
opens an empty columnar store rooted at the given directory. -/
def ArrowTimeSeriesStorage.createWithPermanentDirectory (dir : String) :
    ArrowTimeSeriesStorage :=
  ⟨dir, []⟩

/-- Modelled from the spec: the columnar-file variant's `add_time_series`
writes one file named by the physical id; per spec section 4.1 a second add
for an already-stored id is a silent no-op. -/
def ArrowTimeSeriesStorage.addTimeSeries (s : ArrowTimeSeriesStorage)
    (metadata : SingleTimeSeriesMetadata) (time_series : SingleTimeSeries) :
    ArrowTimeSeriesStorage :=
  if (s.files.lookup metadata.time_series_id) = none then
    ⟨s.directory, s.files ++ [(metadata.time_series_id, time_series)]⟩
  else
    s

/-- The serialization descriptor dict (`data`) as used by the core files:
`time_series_storage_type`, `directory`, `filename`, `engine_name`. -/
structure SerializedTimeSeriesData where
  time_series_storage_type : String
  directory : String
  filename : String
  engine_name : String
deriving DecidableEq, Repr

/-- `InMemoryTimeSeriesStorage.serialize`: creates an arrow store with a
permanent directory at `dst`, adds every held array to it (metadata rebuilt by
`from_data`), and records the `ArrowTimeSeriesStorage` storage-kind tag in the
descriptor.  Returns the updated descriptor and the transcoded store. -/
def InMemoryTimeSeriesStorage.serialize (s : InMemoryTimeSeriesStorage)
    (data : SerializedTimeSeriesData) (dst : String) :
    SerializedTimeSeriesData × ArrowTimeSeriesStorage :=
  let storage := ArrowTimeSeriesStorage.createWithPermanentDirectory dst
  let storage := s.arrays.foldl
    (fun acc p => acc.addTimeSeries (SingleTimeSeries.fromData p.2 []) p.2) storage
  ({ data with time_series_storage_type := "ArrowTimeSeriesStorage" }, storage)

/-! ## Metadata store (`time_series_metadata_store.py`, modelled from spec section 4.2) -/

/-- A component of the system; for the storage manager only the id matters,
for the association index the declared fields matter too (see below). -/
structure AttachedComponent where
  id : Nat
  component_type : String
deriving DecidableEq, Repr

/-- The shape of one declared field of a component, as seen by
`ComponentAssociations.add`: a direct sub-component, a list value, or any
other container shape (dict, nested structure, plain data). -/
inductive FieldValue where
  | component (c : AttachedComponent)
  | componentList (cs : List AttachedComponent)
  | other
deriving DecidableEq, Repr

/-- A component: id, type discriminator and declared fields. -/
structure Component where
  id : Nat
  component_type : String
  fields : List FieldValue
deriving DecidableEq, Repr

/-- Modelled from the spec: one metadata row (spec section 4.2 schema): owning
component, physical time-series id, variable name, type discriminator and the
attribute bag. -/
structure MetadataRow where
  component_id : Nat
  time_series_id : Nat
  variable_name : String
  time_series_type : String
  user_attributes : List (String × String)
deriving DecidableEq, Repr

/-- Modelled from the spec: `TimeSeriesMetadataStore` of
`time_series_metadata_store.py` is not among the five core source files.
Spec section 4.2: a relational table of metadata rows. -/
structure TimeSeriesMetadataStore where
  rows : List MetadataRow
deriving DecidableEq, Repr

/-- Modelled from the spec: `has_time_series(id)` - does any metadata row
reference this physical id. -/
def TimeSeriesMetadataStore.hasTimeSeries (store : TimeSeriesMetadataStore)
    (time_series_id : Nat) : Bool :=
  store.rows.any (fun r => r.time_series_id == time_series_id)

/-- The row inserted for one component by the metadata store's `add`. -/
def metadataRowOf (metadata : SingleTimeSeriesMetadata) (c : Component) : MetadataRow :=
  { component_id := c.id
    time_series_id := metadata.time_series_id
    variable_name := metadata.variable_name
    time_series_type := metadata.time_series_type
    user_attributes := metadata.user_attributes }

/-- Modelled from the spec: `add(metadata, *components)` inserts one row per
component the series is attached to (spec section 4.2). -/
def TimeSeriesMetadataStore.add (store : TimeSeriesMetadataStore)
    (metadata : SingleTimeSeriesMetadata) (components : List Component) :
    TimeSeriesMetadataStore :=
  ⟨store.rows ++ components.map (metadataRowOf metadata)⟩

/-- Modelled from the spec: the filter predicate shared by the metadata store
queries - component among those given, optional variable name, type
discriminator, and exact match of the supplied attribute key/value pairs
(spec section 4.2, no partial match). -/
def matchesFilters (r : MetadataRow) (component_ids : List Nat)
    (variable_name : Option String) (time_series_type : String)
    (user_attributes : List (String × String)) : Bool :=
  component_ids.contains r.component_id &&
    (match variable_name with
     | none => true
     | some v => r.variable_name == v) &&
    r.time_series_type == time_series_type &&
    user_attributes.all (fun kv => r.user_attributes.contains kv)

/-- Modelled from the spec: `remove(*components, ...)` deletes all matching
rows and returns the set of physical ids touched; `ISNotStored` when nothing
matched (spec section 4.2). -/
def TimeSeriesMetadataStore.remove (store : TimeSeriesMetadataStore)
    (components : List Component) (variable_name : Option String)
    (time_series_type : String) (user_attributes : List (String × String)) :
    Except ISError (TimeSeriesMetadataStore × List Nat) :=
  let cids := components.map (fun c => c.id)
  let matched := store.rows.filter
    (fun r => matchesFilters r cids variable_name time_series_type user_attributes)
  if matched.isEmpty then
    .error .notStored
  else
    .ok (⟨store.rows.filter
            (fun r => !(matchesFilters r cids variable_name time_series_type user_attributes))⟩,
         (matched.map (fun r => r.time_series_id)).dedup)

/-- Modelled from the spec: `list_missing_time_series(ids)` returns the subset
of the given physical ids with zero remaining metadata references (spec
section 4.2, the reference-counting gate). -/
def TimeSeriesMetadataStore.listMissingTimeSeries (store : TimeSeriesMetadataStore)
    (ids : List Nat) : List Nat :=
  ids.filter (fun tid => !(store.hasTimeSeries tid))

/-! ## Storage manager (`time_series_manager.py`) -/

/-- The active backend held by `TimeSeriesManager._storage` (base-class
dispatch over the concrete backend type). -/
inductive TimeSeriesStorage where
  | inMemory (s : InMemoryTimeSeriesStorage)
  | chronify (s : ChronifyTimeSeriesStorage)
deriving DecidableEq, Repr

/-- Dispatch of `add_time_series` over the active backend. -/
def TimeSeriesStorage.addTimeSeries :
    TimeSeriesStorage → SingleTimeSeriesMetadata → SingleTimeSeries → TimeSeriesStorage
  | .inMemory s, md, ts => .inMemory (s.addTimeSeries md ts)
  | .chronify s, md, ts => .chronify (s.addTimeSeries md ts)

/-- Dispatch of `remove_time_series` over the active backend.  The in-memory
backend can raise `ISNotStored`; the chronify backend's delete never raises. -/
def TimeSeriesStorage.removeTimeSeries :
    TimeSeriesStorage → Nat → Except ISError TimeSeriesStorage
  | .inMemory s, tid => (s.removeTimeSeries tid).map .inMemory
  | .chronify s, tid => .ok (.chronify (s.removeTimeSeries tid))

/-- The first positional argument of `TimeSeriesManager.add` before the
`issubclass(type(time_series), TimeSeriesData)` check: either a real time
series or a value of some unrelated type. -/
inductive TimeSeriesValue where
  | single (ts : SingleTimeSeries)
  | notTimeSeries
deriving DecidableEq, Repr

/-- `TimeSeriesManager`: read-only flag, the id allocator counter
(`IDManager`, modelled from the spec as a monotonically increasing counter),
the metadata store and the active storage backend. -/
structure TimeSeriesManager where
  read_only : Bool
  next_id : Nat
  metadata_store : TimeSeriesMetadataStore
  storage : TimeSeriesStorage
deriving DecidableEq, Repr

/-- `TimeSeriesManager.add`: `_handle_read_only`, the zero-components check,
the `TimeSeriesData` type check, id assignment from the allocator when
`time_series.id is None`, metadata construction via `from_data`, physical
store gated by `not metadata_store.has_time_series(id)`, and unconditional
metadata registration.  Returns the new manager state and the (possibly
mutated) time series argument. -/
def TimeSeriesManager.add (m : TimeSeriesManager) (time_series : TimeSeriesValue)
    (components : List Component) (user_attributes : List (String × String)) :
    Except ISError (TimeSeriesManager × SingleTimeSeries) :=
  if m.read_only then .error .operationNotAllowed
  else if components.isEmpty then .error .operationNotAllowed
  else
    match time_series with
    | .notTimeSeries => .error .valueError
    | .single ts0 =>
      let assigned : SingleTimeSeries × Nat :=
        match ts0.id with
        | none => ({ ts0 with id := some m.next_id }, m.next_id + 1)
        | some _ => (ts0, m.next_id)
      let ts1 := assigned.1
      let metadata := SingleTimeSeries.fromData ts1 user_attributes
      let storage' :=
        if m.metadata_store.hasTimeSeries (ts1.id.getD 0) then m.storage
        else m.storage.addTimeSeries metadata ts1
      let store' := m.metadata_store.add metadata components
      .ok ({ m with next_id := assigned.2, metadata_store := store', storage := storage' }, ts1)

/-- `TimeSeriesManager.remove`: `_handle_read_only`, metadata-store removal
(returning the touched physical ids), `list_missing_time_series` to find the
ids with zero remaining references, and one backend `remove_time_series` call
per such id. -/
def TimeSeriesManager.remove (m : TimeSeriesManager) (components : List Component)
    (variable_name : Option String) (time_series_type : String)
    (user_attributes : List (String × String)) :
    Except ISError TimeSeriesManager :=
  if m.read_only then .error .operationNotAllowed
  else
    match m.metadata_store.remove components variable_name time_series_type user_attributes with
    | .error e => .error e
    | .ok (store', time_series_ids) =>
      let missing_ids := store'.listMissingTimeSeries time_series_ids
      match missing_ids.foldlM (fun st tid => TimeSeriesStorage.removeTimeSeries st tid) m.storage with
      | .error e => .error e
      | .ok storage' => .ok { m with metadata_store := store', storage := storage' }

/-- The backend construction paths reachable from
`TimeSeriesManager.deserialize`, one constructor per concrete constructor
call in the source (the file operations themselves are outside the embedding). -/
inductive ConstructedStorage where
  | chronifyFromFile (filename engine_name : String)
  | chronifyFromFileToTmpFile (filename engine_name dst_dir : String)
  | arrowPermanentDirectory (dir : String)
  | arrowTempCopied (src_dir : String)
deriving DecidableEq, Repr

/-- The brand-new manager instance built by `TimeSeriesManager.deserialize`:
its read-only flag and the backend constructed by the dispatch. -/
structure DeserializedManager where
  read_only : Bool
  storage : ConstructedStorage
deriving DecidableEq, Repr

/-- `TimeSeriesManager.deserialize`: rejects the in-memory kwarg with
`ISOperationNotAllowed`; dispatches on `data["time_series_storage_type"]` and
the read-only kwarg; raises `NotImplementedError` for any other storage-kind
tag. -/
def TimeSeriesManager.deserialize (data : SerializedTimeSeriesData)
    (parent_dir : String) (time_series_in_memory time_series_read_only : Bool) :
    Except ISError DeserializedManager :=
  if time_series_in_memory then .error .operationNotAllowed
  else
    let time_series_dir := parent_dir ++ "/" ++ data.directory
    if data.time_series_storage_type = "ChronifyTimeSeriesStorage" then
      if time_series_read_only then
        .ok ⟨true, .chronifyFromFile data.filename data.engine_name⟩
      else
        .ok ⟨false, .chronifyFromFileToTmpFile data.filename data.engine_name time_series_dir⟩
    else if data.time_series_storage_type = "ArrowTimeSeriesStorage" then
      if time_series_read_only then
        .ok ⟨true, .arrowPermanentDirectory time_series_dir⟩
      else
        .ok ⟨false, .arrowTempCopied time_series_dir⟩
    else
      .error .notImplemented

/-! ## Component associations (`component_associations.py`) -/

/-- One row of the `component_associations` table. -/
structure AssociationRow where
  component_id : Nat
  component_type : String
  attached_component_id : Nat
  attached_component_type : String
deriving DecidableEq, Repr

/-- `ComponentAssociations._make_row`. -/
def makeAssociationRow (component : Component) (attached : AttachedComponent) :
    AssociationRow :=
  { component_id := component.id
    component_type := component.component_type
    attached_component_id := attached.id
    attached_component_type := attached.component_type }

/-- The rows contributed by one field in `ComponentAssociations.add`:
a direct `Component`-valued field yields one row; a non-empty list whose
elements are components yields one row per element (`isinstance(val, list)
and val and isinstance(val[0], Component)`); dicts and other data structures
yield nothing. -/
def fieldAssociationRows (component : Component) : FieldValue → List AssociationRow
  | .component c => [makeAssociationRow component c]
  | .componentList cs => if cs.isEmpty then [] else cs.map (makeAssociationRow component)
  | .other => []

/-- The rows contributed by one component in `ComponentAssociations.add`. -/
def componentRows (component : Component) : List AssociationRow :=
  component.fields.flatMap (fieldAssociationRows component)

/-- `ComponentAssociations.add(*components)`: inserts the collected rows of
every given component into the table. -/
def ComponentAssociations.add (table : List AssociationRow)
    (components : List Component) : List AssociationRow :=
  table ++ components.flatMap componentRows

/-- The WHERE clause of `list_child_components`: `component_id = ?` and,
when a type was given, `attached_component_type = ?`. -/
def childFilter (component : Component) (component_type : Option String)
    (r : AssociationRow) : Bool :=
  r.component_id == component.id &&
    (match component_type with
     | none => true
     | some t => r.attached_component_type == t)

/-- `ComponentAssociations.list_child_components`: `SELECT
attached_component_id FROM component_associations WHERE component_id = ?
[AND attached_component_type = ?]`. -/
def ComponentAssociations.listChildComponents (table : List AssociationRow)
    (component : Component) (component_type : Option String) : List Nat :=
  (table.filter (childFilter component component_type)).map
    (fun r => r.attached_component_id)

/-- Does an attached component pass the optional type discriminator.  Part of
the claim-side description of the association index (spec section 4.3), used
to compare the implementation against the spec. -/
def typeOk (component_type : Option String) (c : AttachedComponent) : Bool :=
  match component_type with
  | none => true
  | some t => c.component_type == t

/-- Claim-side description, per field: the ids of the sub-components held in
a direct field or in a (possibly empty) list field, filtered by the optional
type discriminator; nothing for other container shapes. -/
def fieldChildIds (component_type : Option String) : FieldValue → List Nat
  | .component c => if typeOk component_type c then [c.id] else []
  | .componentList cs => (cs.filter (typeOk component_type)).map (fun c => c.id)
  | .other => []

/-- Claim-side description of `list_child_components` for one owner: exactly
the ids of the sub-components attached through direct fields and direct
list fields, filtered by the optional type discriminator. -/
def directChildIds (component : Component) (component_type : Option String) : List Nat :=
  component.fields.flatMap (fieldChildIds component_type)

/-! ## Concrete sample states used by the witnesses and counterexamples -/

def c1Component1 : Component := ⟨1, "Generator", []⟩

def c1Component2 : Component := ⟨2, "Generator", []⟩

def c1Series : SingleTimeSeries := ⟨some 7, "load", 1, 0, [1, 2]⟩

/-- Two metadata rows sharing physical id 7, attached to components 1 and 2. -/
def c1MetadataStore : TimeSeriesMetadataStore :=
  ⟨[⟨1, 7, "load", "SingleTimeSeries", []⟩, ⟨2, 7, "load", "SingleTimeSeries", []⟩]⟩

def c1Manager : TimeSeriesManager :=
  ⟨false, 8, c1MetadataStore, .inMemory ⟨[(7, c1Series)]⟩⟩

/-- The metadata store of the C1 scenario after the row of component 1 has
been removed: one surviving reference to physical id 7. -/
def c1StoreAfter : TimeSeriesMetadataStore :=
  ⟨[⟨2, 7, "load", "SingleTimeSeries", []⟩]⟩

/-- The chronify table holding the two ingested rows of physical id 7. -/
def c1ChronStorage : ChronifyTimeSeriesStorage := ⟨[⟨7, 0, 1⟩, ⟨7, 1, 2⟩]⟩

/-- The C1 scenario again, but with the chronify backend active. -/
def c1ChronManager : TimeSeriesManager :=
  ⟨false, 8, c1MetadataStore, .chronify c1ChronStorage⟩

def c2Series : SingleTimeSeries := ⟨some 1, "v", 1, 0, [1, 2, 3]⟩

def c3Series : SingleTimeSeries := ⟨some 1, "load", 1, 0, [5]⟩

def c3Metadata : SingleTimeSeriesMetadata := c3Series.fromData []

def c3Component1 : Component := ⟨1, "Bus", []⟩

def c3Component2 : Component := ⟨2, "Bus", []⟩

def c3Manager : TimeSeriesManager := ⟨false, 10, ⟨[]⟩, .inMemory ⟨[]⟩⟩

def c4Manager : TimeSeriesManager := ⟨false, 0, ⟨[]⟩, .inMemory ⟨[]⟩⟩

def c4ReadOnlyManager : TimeSeriesManager := ⟨true, 0, ⟨[]⟩, .inMemory ⟨[]⟩⟩

def c4Component : Component := ⟨1, "Bus", []⟩

def c5Series : SingleTimeSeries := ⟨some 3, "p", 1, 0, [1, 2]⟩

def c5Component : Component := ⟨1, "Bus", []⟩

def c5Manager : TimeSeriesManager := ⟨false, 9, ⟨[]⟩, .inMemory ⟨[]⟩⟩

def c6Series : SingleTimeSeries := ⟨some 4, "x", 1, 0, [1]⟩

def c6Storage : InMemoryTimeSeriesStorage := ⟨[(4, c6Series)]⟩

def c7ChronifyData : SerializedTimeSeriesData :=
  ⟨"ChronifyTimeSeriesStorage", "tsdir", "db.sqlite", "duckdb"⟩

def c7ArrowData : SerializedTimeSeriesData :=
  ⟨"ArrowTimeSeriesStorage", "tsdir", "", ""⟩

def c7UnknownData : SerializedTimeSeriesData :=
  ⟨"H5TimeSeriesStorage", "tsdir", "", ""⟩

def c8Storage : InMemoryTimeSeriesStorage :=
  ⟨[(1, ⟨some 1, "a", 1, 0, [1]⟩), (2, ⟨some 2, "b", 1, 0, [2, 3]⟩)]⟩

def c8Data : SerializedTimeSeriesData := ⟨"InMemoryTimeSeriesStorage", "d", "f", "e"⟩

def c9Bus : AttachedComponent := ⟨3, "Bus"⟩

def c10FreshSeries : SingleTimeSeries := ⟨none, "w", 1, 0, [1]⟩

def c10AssignedSeries : SingleTimeSeries := ⟨some 5, "w", 1, 0, [1]⟩

def c10Manager : TimeSeriesManager := ⟨false, 42, ⟨[]⟩, .inMemory ⟨[]⟩⟩

def c10Component : Component := ⟨1, "Bus", []⟩

/-! ## Helper lemmas -/

theorem lookup_filter_key_true {β : Type} (q : Nat → Bool) (l : List (Nat × β)) (tid : Nat)
    (h : q tid = true) :
    (l.filter (fun p => q p.1)).lookup tid = l.lookup tid := by
  induction l with
  | nil => rfl
  | cons p ps ih =>
    obtain ⟨k, v⟩ := p
    by_cases hk : q k = true
    · simp only [List.filter_cons, hk, if_pos]
      rw [List.lookup_cons, List.lookup_cons]
      cases htk : (tid == k) with
      | true => rfl
      | false => exact ih
    · rw [Bool.not_eq_true] at hk
      simp only [List.filter_cons, hk, Bool.false_eq_true, if_neg, not_false_iff]
      have htk : (tid == k) = false := by
        by_cases he : tid = k
        · subst he; rw [h] at hk; cases hk
        · simp [he]
      rw [List.lookup_cons, htk]
      exact ih

theorem lookup_filter_key_false {β : Type} (q : Nat → Bool) (l : List (Nat × β)) (tid : Nat)
    (h : q tid = false) :
    (l.filter (fun p => q p.1)).lookup tid = none := by
  rw [List.lookup_eq_none_iff]
  intro p hp
  rw [List.mem_filter] at hp
  by_cases he : tid = p.1
  · subst he; rw [h] at hp; simp at hp
  · simpa using he

/-- Running the manager's physical-deletion loop over the ids `L` on an
in-memory backend: success leaves exactly the arrays whose id is not in `L`. -/
theorem foldlM_removeTimeSeries_inMemory (L : List Nat) (s : InMemoryTimeSeriesStorage)
    (st' : TimeSeriesStorage)
    (h : L.foldlM (fun st tid => TimeSeriesStorage.removeTimeSeries st tid)
          (TimeSeriesStorage.inMemory s) = .ok st') :
    ∃ s', st' = .inMemory s' ∧
      s'.arrays = s.arrays.filter (fun p => !(L.contains p.1)) := by
  induction L generalizing s with
  | nil =>
    simp only [List.foldlM, pure, Except.pure] at h
    cases h
    exact ⟨s, rfl, by simp⟩
  | cons t ts ih =>
    rw [List.foldlM_cons] at h
    by_cases hl : s.arrays.lookup t = none
    · have hr : TimeSeriesStorage.removeTimeSeries (.inMemory s) t = .error .notStored := by
        simp [TimeSeriesStorage.removeTimeSeries, InMemoryTimeSeriesStorage.removeTimeSeries,
          hl, Except.map]
      rw [hr] at h
      simp [bind, Except.bind] at h
    · have hr : TimeSeriesStorage.removeTimeSeries (.inMemory s) t =
          .ok (.inMemory ⟨s.arrays.filter (fun p => !(p.1 == t))⟩) := by
        simp [TimeSeriesStorage.removeTimeSeries, InMemoryTimeSeriesStorage.removeTimeSeries,
          if_neg hl, Except.map]
      rw [hr] at h
      simp only [bind, Except.bind] at h
      obtain ⟨s', hst, harr⟩ := ih ⟨s.arrays.filter (fun p => !(p.1 == t))⟩ h
      refine ⟨s', hst, ?_⟩
      rw [harr]
      simp only [List.filter_filter]
      apply List.filter_congr
      intro p _
      rw [List.contains_cons, Bool.not_or]
      exact Bool.and_comm _ _

/-- Running the manager's physical-deletion loop over the ids `L` on a
chronify backend: it always succeeds and leaves exactly the rows whose id is
not in `L`. -/
theorem foldlM_removeTimeSeries_chronify (L : List Nat) (c : ChronifyTimeSeriesStorage)
    (st' : TimeSeriesStorage)
    (h : L.foldlM (fun st tid => TimeSeriesStorage.removeTimeSeries st tid)
          (TimeSeriesStorage.chronify c) = .ok st') :
    ∃ c', st' = .chronify c' ∧
      c'.rows = c.rows.filter (fun r => !(L.contains r.id)) := by
  induction L generalizing c with
  | nil =>
    simp only [List.foldlM, pure, Except.pure] at h
    cases h
    exact ⟨c, rfl, by simp⟩
  | cons t ts ih =>
    rw [List.foldlM_cons] at h
    have hr : TimeSeriesStorage.removeTimeSeries (.chronify c) t =
        .ok (.chronify ⟨c.rows.filter (fun r => !(r.id == t))⟩) := rfl
    rw [hr] at h
    simp only [bind, Except.bind] at h
    obtain ⟨c', hst, hrows⟩ := ih ⟨c.rows.filter (fun r => !(r.id == t))⟩ h
    refine ⟨c', hst, ?_⟩
    rw [hrows]
    simp only [List.filter_filter]
    apply List.filter_congr
    intro r _
    rw [List.contains_cons, Bool.not_or]
    exact Bool.and_comm _ _

/-- A physical id still referenced by a surviving metadata row is not in the
missing-id set. -/
theorem listMissing_contains_false (store' : TimeSeriesMetadataStore)
    (touched : List Nat) (tid : Nat)
    (htid : store'.hasTimeSeries tid = true) :
    (store'.listMissingTimeSeries touched).contains tid = false := by
  rw [Bool.eq_false_iff]
  intro hcon
  have hmem : tid ∈ store'.listMissingTimeSeries touched := by simpa using hcon
  unfold TimeSeriesMetadataStore.listMissingTimeSeries at hmem
  rw [List.mem_filter] at hmem
  rw [htid] at hmem
  simp at hmem

/-- A touched physical id with zero remaining metadata references is in the
missing-id set. -/
theorem listMissing_contains_true (store' : TimeSeriesMetadataStore)
    (touched : List Nat) (tid : Nat)
    (htc : touched.contains tid = true) (hfalse : store'.hasTimeSeries tid = false) :
    (store'.listMissingTimeSeries touched).contains tid = true := by
  have hmem : tid ∈ store'.listMissingTimeSeries touched := by
    unfold TimeSeriesMetadataStore.listMissingTimeSeries
    rw [List.mem_filter]
    exact ⟨by simpa using htc, by simp [hfalse]⟩
  simpa using hmem

theorem childFilter_makeRow (c k : Component) (component_type : Option String)
    (a : AttachedComponent) :
    childFilter c component_type (makeAssociationRow k a) =
      ((k.id == c.id) && typeOk component_type a) := by
  unfold childFilter makeAssociationRow typeOk
  cases component_type <;> rfl

theorem filter_map_comm {α β : Type} (g : α → β) (p : β → Bool) (l : List α) :
    (l.map g).filter p = (l.filter (fun x => p (g x))).map g := by
  induction l with
  | nil => rfl
  | cons a as ih =>
    simp only [List.map_cons, List.filter_cons]
    cases hp : p (g a) <;> simp [hp, ih]

theorem listChild_fieldRows (c k : Component) (component_type : Option String)
    (f : FieldValue) :
    ((fieldAssociationRows k f).filter (childFilter c component_type)).map
        (fun r => r.attached_component_id) =
      if k.id == c.id then fieldChildIds component_type f else [] := by
  cases f with
  | component a =>
    simp only [fieldAssociationRows, fieldChildIds, List.filter_cons, List.filter_nil,
      childFilter_makeRow]
    cases hid : (k.id == c.id) <;> cases ht : typeOk component_type a <;>
      simp [makeAssociationRow]
  | componentList cs =>
    cases hcs : cs.isEmpty with
    | true =>
      have : cs = [] := by simpa using hcs
      subst this
      simp [fieldAssociationRows, fieldChildIds]
    | false =>
      simp only [fieldAssociationRows, fieldChildIds, hcs, Bool.false_eq_true, if_neg,
        not_false_iff]
      rw [filter_map_comm, List.map_map]
      cases hid : (k.id == c.id) with
      | true =>
        simp only [if_pos]
        have hcong : cs.filter (fun x => childFilter c component_type (makeAssociationRow k x)) =
            cs.filter (typeOk component_type) := by
          apply List.filter_congr
          intro x _
          rw [childFilter_makeRow, hid, Bool.true_and]
        rw [hcong]
        rfl
      | false =>
        have hcong : cs.filter (fun x => childFilter c component_type (makeAssociationRow k x)) =
            cs.filter (fun _ => false) := by
          apply List.filter_congr
          intro x _
          rw [childFilter_makeRow, hid, Bool.false_and]
        simp [hcong]
  | other => simp [fieldAssociationRows, fieldChildIds]

theorem listChild_componentRows (c k : Component) (component_type : Option String) :
    ((componentRows k).filter (childFilter c component_type)).map
        (fun r => r.attached_component_id) =
      if k.id == c.id then directChildIds k component_type else [] := by
  unfold componentRows directChildIds
  induction k.fields with
  | nil => cases (k.id == c.id) <;> simp
  | cons f fs ih =>
    simp only [List.flatMap_cons, List.filter_append, List.map_append, ih,
      listChild_fieldRows]
    cases (k.id == c.id) <;> simp

theorem arrow_foldl_add (l : List (Nat × SingleTimeSeries)) :
    ∀ (acc : ArrowTimeSeriesStorage),
      (∀ p ∈ l, p.2.id = some p.1) →
      (l.map Prod.fst).Nodup →
      (∀ p ∈ l, acc.files.lookup p.1 = none) →
      l.foldl (fun acc p => acc.addTimeSeries (SingleTimeSeries.fromData p.2 []) p.2) acc =
        ⟨acc.directory, acc.files ++ l⟩ := by
  induction l with
  | nil => intro acc _ _ _; simp
  | cons p ps ih =>
    intro acc hinv hnodup hacc
    have hid : (SingleTimeSeries.fromData p.2 []).time_series_id = p.1 := by
      unfold SingleTimeSeries.fromData
      rw [hinv p (List.mem_cons_self p ps)]
      rfl
    have hstep : acc.addTimeSeries (SingleTimeSeries.fromData p.2 []) p.2 =
        ⟨acc.directory, acc.files ++ [(p.1, p.2)]⟩ := by
      unfold ArrowTimeSeriesStorage.addTimeSeries
      rw [hid, if_pos (hacc p (List.mem_cons_self p ps))]
    rw [List.foldl_cons, hstep]
    have hnot : p.1 ∉ ps.map Prod.fst := by
      have := hnodup
      rw [List.map_cons, List.nodup_cons] at this
      exact this.1
    rw [ih ⟨acc.directory, acc.files ++ [(p.1, p.2)]⟩
      (fun q hq => hinv q (List.mem_cons_of_mem p hq))
      (by rw [List.map_cons, List.nodup_cons] at hnodup; exact hnodup.2)
      ?_]
    · simp
    · intro q hq
      rw [List.lookup_append, hacc q (List.mem_cons_of_mem p hq)]
      have hne : ¬ q.1 = p.1 := by
        intro he
        exact hnot (he ▸ List.mem_map_of_mem Prod.fst hq)
      simp [List.lookup_cons, hne]

/-! ## Claim theorems -/

/-- C9: for every set of components passed to `ComponentAssociations.add`,
one edge row is inserted per (owner, attachee) pair for each field holding a
direct sub-component or a non-empty list of sub-components, and none for
other container shapes or empty lists; `list_child_components` then returns
exactly the attached ids of those edges for the given owner, filtered by the
optional type discriminator.  The right-hand side (`directChildIds`) is the
claim-side description of the attached ids. -/
theorem c9_association_add_and_list_children (components : List Component)
    (component : Component) (component_type : Option String) :
    ComponentAssociations.listChildComponents
        (ComponentAssociations.add [] components) component component_type =
      (components.filter (fun k => k.id == component.id)).flatMap
        (fun k => directChildIds k component_type) := by
  unfold ComponentAssociations.add ComponentAssociations.listChildComponents
  rw [List.nil_append]
  induction components with
  | nil => rfl
  | cons k ks ih =>
    simp only [List.flatMap_cons, List.filter_append, List.map_append, ih,
      listChild_componentRows, List.filter_cons]
    cases hid : (k.id == component.id) with
    | true => simp [List.flatMap_cons]
    | false => simp

/-- C7: `TimeSeriesManager.deserialize` fails with `ISOperationNotAllowed`
whenever the in-memory mode is requested; fails with `NotImplementedError`
for every unrecognized storage-kind tag; and for the two recognized storage
kinds constructs a brand-new manager whose backend construction path is
dispatched on the tag and the read-only flag. -/
theorem c7_deserialize_dispatch :
    (∀ (data : SerializedTimeSeriesData) (parent_dir : String) (ro : Bool),
       TimeSeriesManager.deserialize data parent_dir true ro =
         .error .operationNotAllowed) ∧
    (∀ (data : SerializedTimeSeriesData) (parent_dir : String) (ro : Bool),
       data.time_series_storage_type ≠ "ChronifyTimeSeriesStorage" →
       data.time_series_storage_type ≠ "ArrowTimeSeriesStorage" →
       TimeSeriesManager.deserialize data parent_dir false ro =
         .error .notImplemented) ∧
    (∀ (data : SerializedTimeSeriesData) (parent_dir : String),
       data.time_series_storage_type = "ChronifyTimeSeriesStorage" →
       TimeSeriesManager.deserialize data parent_dir false true =
         .ok ⟨true, .chronifyFromFile data.filename data.engine_name⟩) ∧
    (∀ (data : SerializedTimeSeriesData) (parent_dir : String),
       data.time_series_storage_type = "ChronifyTimeSeriesStorage" →
       TimeSeriesManager.deserialize data parent_dir false false =
         .ok ⟨false, .chronifyFromFileToTmpFile data.filename data.engine_name
                (parent_dir ++ "/" ++ data.directory)⟩) ∧
    (∀ (data : SerializedTimeSeriesData) (parent_dir : String),
       data.time_series_storage_type = "ArrowTimeSeriesStorage" →
       TimeSeriesManager.deserialize data parent_dir false true =
         .ok ⟨true, .arrowPermanentDirectory (parent_dir ++ "/" ++ data.directory)⟩) ∧
    (∀ (data : SerializedTimeSeriesData) (parent_dir : String),
       data.time_series_storage_type = "ArrowTimeSeriesStorage" →
       TimeSeriesManager.deserialize data parent_dir false false =
         .ok ⟨false, .arrowTempCopied (parent_dir ++ "/" ++ data.directory)⟩) := by
  refine ⟨?_, ?_, ?_, ?_, ?_, ?_⟩
  · intro data parent_dir ro
    simp [TimeSeriesManager.deserialize]
  · intro data parent_dir ro h1 h2
    simp [TimeSeriesManager.deserialize, h1, h2]
  · intro data parent_dir h
    simp [TimeSeriesManager.deserialize, h]
  · intro data parent_dir h
    simp [TimeSeriesManager.deserialize, h]
  · intro data parent_dir h
    have hne : data.time_series_storage_type ≠ "ChronifyTimeSeriesStorage" := by
      rw [h]; decide
    simp [TimeSeriesManager.deserialize, h, hne]
  · intro data parent_dir h
    have hne : data.time_series_storage_type ≠ "ChronifyTimeSeriesStorage" := by
      rw [h]; decide
    simp [TimeSeriesManager.deserialize, h, hne]

/-- Witness for C7: the six cases of `c7_deserialize_dispatch`, evaluated at
concrete descriptors. -/
theorem c7_deserialize_dispatch_witness :
    (c7UnknownData.time_series_storage_type ≠ "ChronifyTimeSeriesStorage") ∧
    (c7UnknownData.time_series_storage_type ≠ "ArrowTimeSeriesStorage") ∧
    (TimeSeriesManager.deserialize c7ChronifyData "base" true false =
       .error .operationNotAllowed) ∧
    (TimeSeriesManager.deserialize c7UnknownData "base" false false =
       .error .notImplemented) ∧
    (TimeSeriesManager.deserialize c7ChronifyData "base" false true =
       .ok ⟨true, .chronifyFromFile "db.sqlite" "duckdb"⟩) ∧
    (TimeSeriesManager.deserialize c7ChronifyData "base" false false =
       .ok ⟨false, .chronifyFromFileToTmpFile "db.sqlite" "duckdb" "base/tsdir"⟩) ∧
    (TimeSeriesManager.deserialize c7ArrowData "base" false true =
       .ok ⟨true, .arrowPermanentDirectory "base/tsdir"⟩) ∧
    (TimeSeriesManager.deserialize c7ArrowData "base" false false =
       .ok ⟨false, .arrowTempCopied "base/tsdir"⟩) :=
  ⟨by decide, by decide,
   c7_deserialize_dispatch.1 c7ChronifyData "base" false,
   c7_deserialize_dispatch.2.1 c7UnknownData "base" false (by decide) (by decide),
   c7_deserialize_dispatch.2.2.1 c7ChronifyData "base" (by decide),
   c7_deserialize_dispatch.2.2.2.1 c7ChronifyData "base" (by decide),
   c7_deserialize_dispatch.2.2.2.2.1 c7ArrowData "base" (by decide),
   c7_deserialize_dispatch.2.2.2.2.2 c7ArrowData "base" (by decide)⟩

/-- C6 (amended): the in-memory backend's `remove_time_series` deletes the
stored array when present (the id no longer resolves, all other ids are
untouched) and fails with `ISNotStored` when absent; the chronify backend's
`remove_time_series` issues an unconditional SQL delete that always succeeds
(removing exactly the rows with that id), so an absent id is not an error
there. -/
theorem c6_remove_backend_behaviour :
    (∀ (s : InMemoryTimeSeriesStorage) (tid : Nat),
       s.arrays.lookup tid = none →
       s.removeTimeSeries tid = .error .notStored) ∧
    (∀ (s : InMemoryTimeSeriesStorage) (tid : Nat) (ts : SingleTimeSeries),
       s.arrays.lookup tid = some ts →
       ∃ s', s.removeTimeSeries tid = .ok s' ∧
         s'.arrays.lookup tid = none ∧
         ∀ t', t' ≠ tid → s'.arrays.lookup t' = s.arrays.lookup t') ∧
    (∀ (s : ChronifyTimeSeriesStorage) (tid : Nat),
       TimeSeriesStorage.removeTimeSeries (.chronify s) tid =
         .ok (.chronify (s.removeTimeSeries tid)) ∧
       (∀ r : ChronRow, r ∈ (s.removeTimeSeries tid).rows ↔ r ∈ s.rows ∧ r.id ≠ tid)) := by
  refine ⟨?_, ?_, ?_⟩
  · intro s tid h
    unfold InMemoryTimeSeriesStorage.removeTimeSeries
    rw [if_pos h]
  · intro s tid ts h
    have hne : ¬ s.arrays.lookup tid = none := by rw [h]; intro hc; cases hc
    refine ⟨⟨s.arrays.filter (fun p => !(p.1 == tid))⟩, ?_, ?_, ?_⟩
    · unfold InMemoryTimeSeriesStorage.removeTimeSeries
      rw [if_neg hne]
    · exact lookup_filter_key_false (fun x => !(x == tid)) s.arrays tid (by simp)
    · intro t' ht'
      exact lookup_filter_key_true (fun x => !(x == tid)) s.arrays t' (by simp [ht'])
  · intro s tid
    refine ⟨rfl, ?_⟩
    intro r
    unfold ChronifyTimeSeriesStorage.removeTimeSeries
    simp [List.mem_filter]

/-- Witness for C6: `c6_remove_backend_behaviour` evaluated on a store
holding only id 4: removing id 4 succeeds and empties it, removing id 9
fails with `ISNotStored`. -/
theorem c6_remove_backend_behaviour_witness :
    (c6Storage.arrays.lookup 9 = none) ∧
    (c6Storage.arrays.lookup 4 = some c6Series) ∧
    (c6Storage.removeTimeSeries 9 = .error .notStored) ∧
    (∃ s', c6Storage.removeTimeSeries 4 = .ok s' ∧
       s'.arrays.lookup 4 = none ∧
       ∀ t', t' ≠ 4 → s'.arrays.lookup t' = c6Storage.arrays.lookup t') :=
  ⟨by decide, by decide,
   c6_remove_backend_behaviour.1 c6Storage 9 (by decide),
   c6_remove_backend_behaviour.2.1 c6Storage 4 c6Series (by decide)⟩

/-- Counterexample for C6 as stated: on the chronify backend,
`remove_time_series` of an id that is not stored succeeds silently instead of
failing with a NotStored error. -/
theorem c6_remove_counterexample :
    TimeSeriesStorage.removeTimeSeries (.chronify ⟨[]⟩) 5 = .ok (.chronify ⟨[]⟩) ∧
    TimeSeriesStorage.removeTimeSeries (.chronify ⟨[]⟩) 5 ≠ .error .notStored := by
  exact ⟨by decide, by decide⟩

/-- C4 (amended): the storage manager's `add` fails with
`ISOperationNotAllowed` in read-only mode or when zero components are given,
and with `ValueError` when the value is not a recognized time-series type;
`remove` fails with `ISOperationNotAllowed` in read-only mode.  In this
embedding a failing call returns no new state, so the metadata index and the
physical backend are left untouched by construction (the source raises before
mutating anything). -/
theorem c4_mutation_guards :
    (∀ (m : TimeSeriesManager) (v : TimeSeriesValue) (components : List Component)
       (attrs : List (String × String)),
       m.read_only = true →
       m.add v components attrs = .error .operationNotAllowed) ∧
    (∀ (m : TimeSeriesManager) (v : TimeSeriesValue) (attrs : List (String × String)),
       m.read_only = false →
       m.add v [] attrs = .error .operationNotAllowed) ∧
    (∀ (m : TimeSeriesManager) (components : List Component)
       (attrs : List (String × String)),
       m.read_only = false → components.isEmpty = false →
       m.add .notTimeSeries components attrs = .error .valueError) ∧
    (∀ (m : TimeSeriesManager) (components : List Component)
       (variable_name : Option String) (time_series_type : String)
       (attrs : List (String × String)),
       m.read_only = true →
       m.remove components variable_name time_series_type attrs =
         .error .operationNotAllowed) := by
  refine ⟨?_, ?_, ?_, ?_⟩
  · intro m v components attrs h
    simp [TimeSeriesManager.add, h]
  · intro m v attrs h
    simp [TimeSeriesManager.add, h]
  · intro m components attrs h hc
    simp [TimeSeriesManager.add, h, hc]
  · intro m components variable_name time_series_type attrs h
    simp [TimeSeriesManager.remove, h]

/-- Witness for C4: `c4_mutation_guards` evaluated on concrete managers. -/
theorem c4_mutation_guards_witness :
    (c4ReadOnlyManager.read_only = true) ∧
    (c4Manager.read_only = false) ∧
    ([c4Component].isEmpty = false) ∧
    (c4ReadOnlyManager.add (.single c2Series) [c4Component] [] =
       .error .operationNotAllowed) ∧
    (c4Manager.add (.single c2Series) [] [] = .error .operationNotAllowed) ∧
    (c4Manager.add .notTimeSeries [c4Component] [] = .error .valueError) ∧
    (c4ReadOnlyManager.remove [c4Component] none "SingleTimeSeries" [] =
       .error .operationNotAllowed) :=
  ⟨rfl, rfl, rfl,
   c4_mutation_guards.1 c4ReadOnlyManager (.single c2Series) [c4Component] [] rfl,
   c4_mutation_guards.2.1 c4Manager (.single c2Series) [] rfl,
   c4_mutation_guards.2.2.1 c4Manager [c4Component] [] rfl rfl,
   c4_mutation_guards.2.2.2 c4ReadOnlyManager [c4Component] none "SingleTimeSeries" [] rfl⟩

/-- Counterexample for C4 as stated: an unrecognized first argument makes
`add` raise `ValueError`, not `ISOperationNotAllowed`. -/
theorem c4_add_type_check_counterexample :
    c4Manager.add .notTimeSeries [c4Component] [] = .error .valueError ∧
    ISError.valueError ≠ ISError.operationNotAllowed := by
  exact ⟨by decide, by decide⟩

/-- C3 (amended): the in-memory backend's `add_time_series` is a silent no-op
(not an error) when an array with that physical id is already stored, leaving
the store unchanged; the chronify backend's `add_time_series` ingests rows
unconditionally, and exactly-once physical storage is instead enforced by the
manager, whose `has_time_series` gate makes a second `add` of the same
physical array leave the backend untouched. -/
theorem c3_backend_add_idempotence_amended :
    (∀ (s : InMemoryTimeSeriesStorage) (md : SingleTimeSeriesMetadata)
       (ts0 ts : SingleTimeSeries),
       s.arrays.lookup md.time_series_id = some ts0 →
       s.addTimeSeries md ts = s) ∧
    (∀ (m : TimeSeriesManager) (ts : SingleTimeSeries) (c₁ c₂ : Component)
       (attrs₁ attrs₂ : List (String × String)) (m₁ m₂ : TimeSeriesManager)
       (ts₁ ts₂ : SingleTimeSeries),
       m.add (.single ts) [c₁] attrs₁ = .ok (m₁, ts₁) →
       m₁.add (.single ts₁) [c₂] attrs₂ = .ok (m₂, ts₂) →
       m₂.storage = m₁.storage) := by
  constructor
  · intro s md ts0 ts h
    unfold InMemoryTimeSeriesStorage.addTimeSeries
    rw [if_neg (by rw [h]; intro hc; cases hc)]
  · intro m ts c₁ c₂ attrs₁ attrs₂ m₁ m₂ ts₁ ts₂ h1 h2
    cases hro : m.read_only with
    | true => simp [TimeSeriesManager.add, hro] at h1
    | false =>
      cases hid : ts.id with
      | none =>
        simp only [TimeSeriesManager.add, hro, Bool.false_eq_true, if_false,
          List.isEmpty_cons, hid] at h1
        rw [Except.ok.injEq, Prod.mk.injEq] at h1
        obtain ⟨hm, hts⟩ := h1
        have hro₁ : m₁.read_only = false := by rw [← hm]
        have hts₁id : ts₁.id = some m.next_id := by rw [← hts]
        have hhas : m₁.metadata_store.hasTimeSeries m.next_id = true := by
          rw [← hm]
          simp [TimeSeriesMetadataStore.add, TimeSeriesMetadataStore.hasTimeSeries,
            metadataRowOf, SingleTimeSeries.fromData, List.any_append]
        simp only [TimeSeriesManager.add, hro₁, Bool.false_eq_true, if_false,
          List.isEmpty_cons, hts₁id, Option.getD_some, hhas, if_true] at h2
        rw [Except.ok.injEq, Prod.mk.injEq] at h2
        obtain ⟨hm₂, _⟩ := h2
        rw [← hm₂]
      | some k =>
        simp only [TimeSeriesManager.add, hro, Bool.false_eq_true, if_false,
          List.isEmpty_cons, hid] at h1
        rw [Except.ok.injEq, Prod.mk.injEq] at h1
        obtain ⟨hm, hts⟩ := h1
        have hro₁ : m₁.read_only = false := by rw [← hm]
        have hts₁id : ts₁.id = some k := by rw [← hts]; exact hid
        have hhas : m₁.metadata_store.hasTimeSeries k = true := by
          rw [← hm]
          simp [TimeSeriesMetadataStore.add, TimeSeriesMetadataStore.hasTimeSeries,
            metadataRowOf, SingleTimeSeries.fromData, List.any_append, hid]
        simp only [TimeSeriesManager.add, hro₁, Bool.false_eq_true, if_false,
          List.isEmpty_cons, hts₁id, Option.getD_some, hhas, if_true] at h2
        rw [Except.ok.injEq, Prod.mk.injEq] at h2
        obtain ⟨hm₂, _⟩ := h2
        rw [← hm₂]

/-- Witness for C3: the in-memory no-op on an already-stored id, and the
manager-level double add of the same physical array (id 1, via two metadata
records) leaving the backend unchanged after the second call. -/
theorem c3_backend_add_idempotence_witness :
    ((⟨[(1, c3Series)]⟩ : InMemoryTimeSeriesStorage).arrays.lookup
        c3Metadata.time_series_id = some c3Series) ∧
    ((⟨[(1, c3Series)]⟩ : InMemoryTimeSeriesStorage).addTimeSeries c3Metadata c3Series =
       ⟨[(1, c3Series)]⟩) ∧
    (c3Manager.add (.single c3Series) [c3Component1] [] =
       .ok (⟨false, 10, ⟨[⟨1, 1, "load", "SingleTimeSeries", []⟩]⟩,
              .inMemory ⟨[(1, c3Series)]⟩⟩, c3Series)) ∧
    ((⟨false, 10, ⟨[⟨1, 1, "load", "SingleTimeSeries", []⟩]⟩,
        .inMemory ⟨[(1, c3Series)]⟩⟩ : TimeSeriesManager).add (.single c3Series)
        [c3Component2] [] =
       .ok (⟨false, 10, ⟨[⟨1, 1, "load", "SingleTimeSeries", []⟩,
                          ⟨2, 1, "load", "SingleTimeSeries", []⟩]⟩,
              .inMemory ⟨[(1, c3Series)]⟩⟩, c3Series)) ∧
    ((⟨false, 10, ⟨[⟨1, 1, "load", "SingleTimeSeries", []⟩,
                    ⟨2, 1, "load", "SingleTimeSeries", []⟩]⟩,
        .inMemory ⟨[(1, c3Series)]⟩⟩ : TimeSeriesManager).storage =
       (⟨false, 10, ⟨[⟨1, 1, "load", "SingleTimeSeries", []⟩]⟩,
          .inMemory ⟨[(1, c3Series)]⟩⟩ : TimeSeriesManager).storage) :=
  ⟨by decide,
   c3_backend_add_idempotence_amended.1 ⟨[(1, c3Series)]⟩ c3Metadata c3Series c3Series
     (by decide),
   by decide, by decide,
   c3_backend_add_idempotence_amended.2 c3Manager c3Series c3Component1 c3Component2 [] []
     ⟨false, 10, ⟨[⟨1, 1, "load", "SingleTimeSeries", []⟩]⟩, .inMemory ⟨[(1, c3Series)]⟩⟩
     ⟨false, 10, ⟨[⟨1, 1, "load", "SingleTimeSeries", []⟩,
                   ⟨2, 1, "load", "SingleTimeSeries", []⟩]⟩, .inMemory ⟨[(1, c3Series)]⟩⟩
     c3Series c3Series (by decide) (by decide)⟩

/-- Counterexample for C3 as stated: on the chronify backend a second
`add_time_series` for an already-stored physical id is not a no-op - it
ingests the rows again, changing the stored table. -/
theorem c3_chronify_add_counterexample :
    ((⟨[]⟩ : ChronifyTimeSeriesStorage).addTimeSeries c3Metadata c3Series).addTimeSeries
        c3Metadata c3Series ≠
      (⟨[]⟩ : ChronifyTimeSeriesStorage).addTimeSeries c3Metadata c3Series := by
  decide

/-- C5: on every successful manager `add`, the array is physically stored in
the backend exactly when no metadata row referenced its physical id at the
time of the call (otherwise the backend is untouched), and the metadata
row(s) for the given components are registered regardless. -/
theorem c5_add_gated_physical_store
    (m : TimeSeriesManager) (ts : SingleTimeSeries) (components : List Component)
    (attrs : List (String × String)) (m' : TimeSeriesManager) (ts' : SingleTimeSeries)
    (h : m.add (.single ts) components attrs = .ok (m', ts')) :
    (m.metadata_store.hasTimeSeries (ts'.id.getD 0) = true → m'.storage = m.storage) ∧
    (m.metadata_store.hasTimeSeries (ts'.id.getD 0) = false →
       m'.storage = m.storage.addTimeSeries (ts'.fromData attrs) ts') ∧
    (∀ si : InMemoryTimeSeriesStorage, m.storage = .inMemory si →
       m.metadata_store.hasTimeSeries (ts'.id.getD 0) = false →
       si.arrays.lookup (ts'.id.getD 0) = none →
       ∃ si', m'.storage = .inMemory si' ∧
         si'.arrays.lookup (ts'.id.getD 0) = some ts') ∧
    (∀ c ∈ components, metadataRowOf (ts'.fromData attrs) c ∈ m'.metadata_store.rows) := by
  cases hro : m.read_only with
  | true => simp [TimeSeriesManager.add, hro] at h
  | false =>
    cases hemp : components.isEmpty with
    | true => simp [TimeSeriesManager.add, hro, hemp] at h
    | false =>
      cases hid : ts.id with
      | none =>
        simp only [TimeSeriesManager.add, hro, Bool.false_eq_true, if_false, hemp,
          hid] at h
        rw [Except.ok.injEq, Prod.mk.injEq] at h
        obtain ⟨hm, hts⟩ := h
        subst hm
        subst hts
        refine ⟨?_, ?_, ?_, ?_⟩
        · intro hhas
          simp at hhas
          simp [hhas]
        · intro hhas
          simp at hhas
          simp [hhas]
        · intro si hsi hhas hlook
          simp at hhas
          have hl : si.arrays.lookup m.next_id = none := hlook
          refine ⟨si.addTimeSeries
            (SingleTimeSeries.fromData { ts with id := some m.next_id } attrs)
            { ts with id := some m.next_id },
            by simp [hhas, hsi, TimeSeriesStorage.addTimeSeries], ?_⟩
          simp [InMemoryTimeSeriesStorage.addTimeSeries, SingleTimeSeries.fromData,
            hl, List.lookup_append, List.lookup_cons]
        · intro c hc
          simp only [TimeSeriesMetadataStore.add]
          exact List.mem_append_right _ (List.mem_map_of_mem _ hc)
      | some k =>
        simp only [TimeSeriesManager.add, hro, Bool.false_eq_true, if_false, hemp,
          hid] at h
        rw [Except.ok.injEq, Prod.mk.injEq] at h
        obtain ⟨hm, hts⟩ := h
        subst hm
        subst hts
        refine ⟨?_, ?_, ?_, ?_⟩
        · intro hhas
          simp [hid] at hhas
          simp [hhas]
        · intro hhas
          simp [hid] at hhas
          simp [hhas]
        · intro si hsi hhas hlook
          simp [hid] at hhas
          rw [hid] at hlook
          simp only [Option.getD_some] at hlook
          refine ⟨si.addTimeSeries (SingleTimeSeries.fromData ts attrs) ts,
            by simp [hhas, hsi, TimeSeriesStorage.addTimeSeries], ?_⟩
          simp [InMemoryTimeSeriesStorage.addTimeSeries, SingleTimeSeries.fromData,
            hid, hlook, List.lookup_append, List.lookup_cons]
        · intro c hc
          simp only [TimeSeriesMetadataStore.add]
          exact List.mem_append_right _ (List.mem_map_of_mem _ hc)

/-- Witness for C5: a concrete successful add on an empty manager: the array
is stored in the in-memory backend and the metadata row registered. -/
theorem c5_add_gated_physical_store_witness :
    (c5Manager.add (.single c5Series) [c5Component] [] =
       .ok (⟨false, 9, ⟨[⟨1, 3, "p", "SingleTimeSeries", []⟩]⟩,
              .inMemory ⟨[(3, c5Series)]⟩⟩, c5Series)) ∧
    (c5Manager.metadata_store.hasTimeSeries (c5Series.id.getD 0) = false) ∧
    (∃ si', (⟨false, 9, ⟨[⟨1, 3, "p", "SingleTimeSeries", []⟩]⟩,
               .inMemory ⟨[(3, c5Series)]⟩⟩ : TimeSeriesManager).storage =
          .inMemory si' ∧
       si'.arrays.lookup (c5Series.id.getD 0) = some c5Series) ∧
    (metadataRowOf (c5Series.fromData []) c5Component ∈
       (⟨false, 9, ⟨[⟨1, 3, "p", "SingleTimeSeries", []⟩]⟩,
          .inMemory ⟨[(3, c5Series)]⟩⟩ : TimeSeriesManager).metadata_store.rows) := by
  have h : c5Manager.add (.single c5Series) [c5Component] [] =
      .ok (⟨false, 9, ⟨[⟨1, 3, "p", "SingleTimeSeries", []⟩]⟩,
             .inMemory ⟨[(3, c5Series)]⟩⟩, c5Series) := by decide
  have hc := c5_add_gated_physical_store c5Manager c5Series [c5Component] [] _ _ h
  exact ⟨h, by decide, hc.2.2.1 ⟨[]⟩ rfl (by decide) (by decide),
    hc.2.2.2 c5Component (by decide)⟩

/-- C10: the manager's `add` assigns a fresh allocator id to its argument
exactly when the argument's id is `None` (advancing the allocator); when the
id is already set the allocator is untouched and the returned series is the
argument itself, every field unchanged. -/
theorem c10_add_id_assignment
    (m : TimeSeriesManager) (ts : SingleTimeSeries) (components : List Component)
    (attrs : List (String × String))
    (hro : m.read_only = false) (hcomps : components.isEmpty = false) :
    (ts.id = none →
       ∃ m', m.add (.single ts) components attrs =
           .ok (m', { ts with id := some m.next_id }) ∧
         m'.next_id = m.next_id + 1) ∧
    (∀ k, ts.id = some k →
       ∃ m', m.add (.single ts) components attrs = .ok (m', ts) ∧
         m'.next_id = m.next_id) := by
  constructor
  · intro hid
    simp only [TimeSeriesManager.add, hro, Bool.false_eq_true, if_false, hcomps, hid]
    exact ⟨_, rfl, rfl⟩
  · intro k hid
    simp only [TimeSeriesManager.add, hro, Bool.false_eq_true, if_false, hcomps, hid]
    exact ⟨_, rfl, rfl⟩

/-- Witness for C10: on a manager with allocator counter 42, adding a series
with no id returns it with id 42 and advances the counter; adding a series
with id 5 returns it unchanged with the counter still at 42. -/
theorem c10_add_id_assignment_witness :
    (c10Manager.read_only = false) ∧
    ([c10Component].isEmpty = false) ∧
    (c10FreshSeries.id = none) ∧
    (c10AssignedSeries.id = some 5) ∧
    (∃ m', c10Manager.add (.single c10FreshSeries) [c10Component] [] =
        .ok (m', { c10FreshSeries with id := some c10Manager.next_id }) ∧
      m'.next_id = c10Manager.next_id + 1) ∧
    (∃ m', c10Manager.add (.single c10AssignedSeries) [c10Component] [] =
        .ok (m', c10AssignedSeries) ∧
      m'.next_id = c10Manager.next_id) :=
  ⟨rfl, rfl, rfl, rfl,
   (c10_add_id_assignment c10Manager c10FreshSeries [c10Component] [] rfl rfl).1 rfl,
   (c10_add_id_assignment c10Manager c10AssignedSeries [c10Component] [] rfl rfl).2 5 rfl⟩

/-- C8: the in-memory backend's `serialize` transcodes every held array into
the columnar-file (arrow) store rooted at the destination - one add per held
array, each stored exactly once - and records the `ArrowTimeSeriesStorage`
storage-kind tag in the descriptor.  The hypotheses are the storage
invariants: every held series carries its own key as id, and keys are
unique (a Python dict cannot hold duplicate keys). -/
theorem c8_in_memory_serialize_transcodes
    (s : InMemoryTimeSeriesStorage) (data : SerializedTimeSeriesData) (dst : String)
    (hinv : ∀ p ∈ s.arrays, p.2.id = some p.1)
    (hnodup : (s.arrays.map Prod.fst).Nodup) :
    (s.serialize data dst).1.time_series_storage_type = "ArrowTimeSeriesStorage" ∧
    (s.serialize data dst).2.directory = dst ∧
    (s.serialize data dst).2.files = s.arrays := by
  simp only [InMemoryTimeSeriesStorage.serialize,
    ArrowTimeSeriesStorage.createWithPermanentDirectory]
  rw [arrow_foldl_add s.arrays ⟨dst, []⟩ hinv hnodup (fun p _ => rfl)]
  simp

/-- Witness for C8: serializing a two-array in-memory store transcodes both
arrays and tags the descriptor with the columnar-file kind. -/
theorem c8_in_memory_serialize_transcodes_witness :
    (c8Storage.serialize c8Data "snap").1.time_series_storage_type =
      "ArrowTimeSeriesStorage" ∧
    (c8Storage.serialize c8Data "snap").2.directory = "snap" ∧
    (c8Storage.serialize c8Data "snap").2.files = c8Storage.arrays :=
  c8_in_memory_serialize_transcodes c8Storage c8Data "snap" (by decide) (by decide)

/-- C1: on every successful manager `remove` - whichever backend is active,
and `TimeSeriesStorage` has exactly the two cases below - writing `store'`
and `touched` for the result of the metadata-store removal, the physical
arrays deleted from the backend are exactly the touched ids with zero
remaining metadata references (as reported by `list_missing_time_series` on
the post-removal index); an id still referenced by a surviving metadata row
keeps its array untouched.  Each such id is deleted exactly once: the
deletion loop runs over the duplicate-free missing-id set, and on the
in-memory backend a second deletion of the same id would raise `ISNotStored`
and make `remove` fail rather than succeed. -/
theorem c1_reference_counted_deletion
    (m : TimeSeriesManager) (components : List Component) (variable_name : Option String)
    (time_series_type : String) (user_attributes : List (String × String))
    (store' : TimeSeriesMetadataStore) (touched : List Nat) (m' : TimeSeriesManager)
    (hmeta : m.metadata_store.remove components variable_name time_series_type
        user_attributes = .ok (store', touched))
    (hrun : m.remove components variable_name time_series_type user_attributes = .ok m') :
    m'.metadata_store = store' ∧
    (∀ s : InMemoryTimeSeriesStorage, m.storage = .inMemory s →
       ∃ s', m'.storage = .inMemory s' ∧
         s'.arrays = s.arrays.filter
           (fun p => !((store'.listMissingTimeSeries touched).contains p.1)) ∧
         (∀ tid, store'.hasTimeSeries tid = true →
           s'.arrays.lookup tid = s.arrays.lookup tid) ∧
         (∀ tid, touched.contains tid = true → store'.hasTimeSeries tid = false →
           s'.arrays.lookup tid = none)) ∧
    (∀ c : ChronifyTimeSeriesStorage, m.storage = .chronify c →
       ∃ c', m'.storage = .chronify c' ∧
         c'.rows = c.rows.filter
           (fun r => !((store'.listMissingTimeSeries touched).contains r.id)) ∧
         (∀ r ∈ c.rows, store'.hasTimeSeries r.id = true → r ∈ c'.rows) ∧
         (∀ tid, touched.contains tid = true → store'.hasTimeSeries tid = false →
           ∀ r ∈ c'.rows, r.id ≠ tid)) := by
  cases hro : m.read_only with
  | true => simp [TimeSeriesManager.remove, hro] at hrun
  | false =>
    simp only [TimeSeriesManager.remove, hro, Bool.false_eq_true, if_false,
      hmeta] at hrun
    cases hfold : (store'.listMissingTimeSeries touched).foldlM
        (fun st tid => TimeSeriesStorage.removeTimeSeries st tid) m.storage with
    | error e =>
      simp only [hfold] at hrun
      exact Except.noConfusion hrun
    | ok storage' =>
      simp only [hfold] at hrun
      rw [Except.ok.injEq] at hrun
      subst hrun
      refine ⟨rfl, ?_, ?_⟩
      · intro s hs
        rw [hs] at hfold
        obtain ⟨s', hst', harr⟩ :=
          foldlM_removeTimeSeries_inMemory (store'.listMissingTimeSeries touched) s
            storage' hfold
        subst hst'
        refine ⟨s', rfl, harr, ?_, ?_⟩
        · intro tid htid
          rw [harr]
          exact lookup_filter_key_true
            (fun x => !((store'.listMissingTimeSeries touched).contains x)) s.arrays tid
            (by simpa using listMissing_contains_false store' touched tid htid)
        · intro tid htc hfalse
          rw [harr]
          exact lookup_filter_key_false
            (fun x => !((store'.listMissingTimeSeries touched).contains x)) s.arrays tid
            (by simpa using listMissing_contains_true store' touched tid htc hfalse)
      · intro c hcs
        rw [hcs] at hfold
        obtain ⟨c', hst', hrows⟩ :=
          foldlM_removeTimeSeries_chronify (store'.listMissingTimeSeries touched) c
            storage' hfold
        subst hst'
        refine ⟨c', rfl, hrows, ?_, ?_⟩
        · intro r hr htid
          rw [hrows, List.mem_filter]
          refine ⟨hr, ?_⟩
          simpa using listMissing_contains_false store' touched r.id htid
        · intro tid htc hfalse r hr' he
          simp only [hrows, List.mem_filter] at hr'
          have hc := listMissing_contains_true store' touched tid htc hfalse
          rw [he, hc] at hr'
          simp at hr'

/-- Witness for C1, one scenario per backend: with two metadata rows sharing
physical id 7, removing the series of component 1 leaves the still-referenced
array of id 7 physically stored (in-memory backend), and removing the series
of both components deletes the id-7 rows from the chronify table exactly
once. -/
theorem c1_reference_counted_deletion_witness :
    ((⟨false, 8, c1StoreAfter, .inMemory ⟨[(7, c1Series)]⟩⟩ :
        TimeSeriesManager).metadata_store = c1StoreAfter) ∧
    (∃ s', (⟨false, 8, c1StoreAfter, .inMemory ⟨[(7, c1Series)]⟩⟩ :
          TimeSeriesManager).storage = .inMemory s' ∧
       s'.arrays = (⟨[(7, c1Series)]⟩ : InMemoryTimeSeriesStorage).arrays.filter
         (fun p => !((c1StoreAfter.listMissingTimeSeries [7]).contains p.1)) ∧
       (∀ tid, c1StoreAfter.hasTimeSeries tid = true →
         s'.arrays.lookup tid =
           (⟨[(7, c1Series)]⟩ : InMemoryTimeSeriesStorage).arrays.lookup tid) ∧
       (∀ tid, ([7] : List Nat).contains tid = true →
         c1StoreAfter.hasTimeSeries tid = false →
         s'.arrays.lookup tid = none)) ∧
    (∃ c', (⟨false, 8, ⟨[]⟩, .chronify ⟨[]⟩⟩ : TimeSeriesManager).storage =
          .chronify c' ∧
       c'.rows = c1ChronStorage.rows.filter
         (fun r => !(((⟨[]⟩ : TimeSeriesMetadataStore).listMissingTimeSeries
             [7]).contains r.id)) ∧
       (∀ r ∈ c1ChronStorage.rows,
         (⟨[]⟩ : TimeSeriesMetadataStore).hasTimeSeries r.id = true → r ∈ c'.rows) ∧
       (∀ tid, ([7] : List Nat).contains tid = true →
         (⟨[]⟩ : TimeSeriesMetadataStore).hasTimeSeries tid = false →
         ∀ r ∈ c'.rows, r.id ≠ tid)) :=
  ⟨(c1_reference_counted_deletion c1Manager [c1Component1] none "SingleTimeSeries" []
      c1StoreAfter [7] ⟨false, 8, c1StoreAfter, .inMemory ⟨[(7, c1Series)]⟩⟩
      (by decide) (by decide)).1,
   (c1_reference_counted_deletion c1Manager [c1Component1] none "SingleTimeSeries" []
      c1StoreAfter [7] ⟨false, 8, c1StoreAfter, .inMemory ⟨[(7, c1Series)]⟩⟩
      (by decide) (by decide)).2.1 ⟨[(7, c1Series)]⟩ rfl,
   (c1_reference_counted_deletion c1ChronManager [c1Component1, c1Component2] none
      "SingleTimeSeries" [] ⟨[]⟩ [7] ⟨false, 8, ⟨[]⟩, .chronify ⟨[]⟩⟩
      (by decide) (by decide)).2.2 c1ChronStorage rfl⟩
